import Mathlib

/-!
Verification of the Atlantic Zenkeo AC protocol client
(custom_components/ha_atlantic_zenkeo/pyzenkeo.py).

The client builds wire frames out of Python hex strings ("ff ff 22 00 ...")
that are later converted to bytes with bytes.fromhex after removing spaces.
We model hex text as List Char, byte strings as List Nat (each entry a byte
value), and every fallible Python operation (bytes.fromhex, int(c, 16),
enum-by-value lookup) as an Option / Except returning function.
-/

namespace Zenkeo

/-- Mode enum of pyzenkeo.py (SMART=0, COOL=1, HEAT=2, FAN=3, DRY=4). -/
inductive Mode
  | SMART | COOL | HEAT | FAN | DRY
deriving DecidableEq

/-- Numeric value of a Mode member (the .value attribute). -/
def Mode.val : Mode → Nat
  | .SMART => 0
  | .COOL => 1
  | .HEAT => 2
  | .FAN => 3
  | .DRY => 4

/-- Enum-by-value lookup Mode(n): raises ValueError (here: none) for
codes outside 0..4. -/
def Mode.ofCode : Nat → Option Mode
  | 0 => some .SMART
  | 1 => some .COOL
  | 2 => some .HEAT
  | 3 => some .FAN
  | 4 => some .DRY
  | _ => none

/-- FanSpeed enum of pyzenkeo.py (MAX=0, MID=1, MIN=2, AUTO=3). -/
inductive FanSpeed
  | MAX | MID | MIN | AUTO
deriving DecidableEq

/-- Numeric value of a FanSpeed member. -/
def FanSpeed.val : FanSpeed → Nat
  | .MAX => 0
  | .MID => 1
  | .MIN => 2
  | .AUTO => 3

/-- Enum-by-value lookup FanSpeed(n): none for codes outside 0..3. -/
def FanSpeed.ofCode : Nat → Option FanSpeed
  | 0 => some .MAX
  | 1 => some .MID
  | 2 => some .MIN
  | 3 => some .AUTO
  | _ => none

/-- Limits enum of pyzenkeo.py (OFF=0, ONLY_VERTICAL=1). -/
inductive Limits
  | OFF | ONLY_VERTICAL
deriving DecidableEq

/-- Numeric value of a Limits member. -/
def Limits.val : Limits → Nat
  | .OFF => 0
  | .ONLY_VERTICAL => 1

/-- The ZenkeoState dataclass holding a decoded device state. -/
structure ZenkeoState where
  current_temperature : Nat
  target_temperature : Nat
  fan_speed : FanSpeed
  mode : Mode
  health : Bool
  power : Bool
deriving DecidableEq

/-- Python int(c, 16) on a single character: the value of a hex digit,
none for any non-hex-digit character. -/
def hexDigitVal (c : Char) : Option Nat :=
  if '0'.toNat ≤ c.toNat ∧ c.toNat ≤ '9'.toNat then some (c.toNat - '0'.toNat)
  else if 'a'.toNat ≤ c.toNat ∧ c.toNat ≤ 'f'.toNat then some (c.toNat - 'a'.toNat + 10)
  else if 'A'.toNat ≤ c.toNat ∧ c.toNat ≤ 'F'.toNat then some (c.toNat - 'A'.toNat + 10)
  else none

/-- Python s.replace(" ", "") on hex text. -/
def stripSpaces (cs : List Char) : List Char := cs.filter (fun c => c != ' ')

/-- Python bytes.fromhex on already-space-stripped text: pairs of hex digits
become bytes; an odd digit count or a non-hex character raises (none). -/
def fromHex : List Char → Option (List Nat)
  | [] => some []
  | [_] => none
  | c1 :: c2 :: rest =>
    match hexDigitVal c1, hexDigitVal c2, fromHex rest with
    | some h, some l, some bs => some ((16 * h + l) :: bs)
    | _, _, _ => none

/-- Lowercase hex digits of a natural number, most significant first
(Python format spec "x" for a nonnegative int). -/
def natHexDigits (n : Nat) : List Char := Nat.toDigits 16 n

/-- Python f-string "{i:x}" for an arbitrary int: a minus sign followed by
the hex digits of the absolute value when negative. -/
def pyFormatX (i : Int) : List Char :=
  if i < 0 then '-' :: natHexDigits i.natAbs else natHexDigits i.toNat

/-- Python f-string "{n:02x}" for a nonnegative int: hex digits left-padded
with a zero to at least two characters. -/
def pyFormat02x (n : Nat) : List Char :=
  if n < 16 then '0' :: natHexDigits n else natHexDigits n

/-- ZenkeoAC._order_byte: renders n mod 256 as the 4-byte hex text
"00 00 00 xx". -/
def order_byte (n : Nat) : List Char :=
  let val := n % 256
  if val < 16 then "00 00 00 0".data ++ natHexDigits val
  else "00 00 00 ".data ++ natHexDigits val

/-- ZenkeoAC._len4: length of the byte string a hex text denotes, rendered
through _order_byte; fails when bytes.fromhex fails on the text. -/
def len4 (cmd : List Char) : Option (List Char) :=
  (fromHex (stripSpaces cmd)).map (fun bs => order_byte bs.length)

/-- ZenkeoAC._build_command: join the hex-text arguments, drop spaces, and
convert with bytes.fromhex. -/
def build_command (args : List (List Char)) : Option (List Nat) :=
  fromHex (stripSpaces args.flatten)

/-- The MAC normalization done in ZenkeoAC.__init__:
mac.replace(":", "").upper(). -/
def stored_mac (mac : List Char) : List Char :=
  (mac.filter (fun c => c != ':')).map Char.toUpper

/-- ZenkeoAC._mac_to_hex: each character of the stored MAC rendered as the
two hex digits of its code point, space separated, then " 00 00 00 00". -/
def mac_to_hex (sm : List Char) : List Char :=
  (List.intercalate [' '] (sm.map (fun c => pyFormat02x c.toNat))) ++ " 00 00 00 00".data

/-- The weighted digit sum inside ZenkeoAC._append_checksum: over the
space-stripped text, digit i (0-based) is weighted by i mod 2 + 1; a
non-hex character raises (none). -/
def weightedNibbleSum : List Char → Nat → Option Nat
  | [], _ => some 0
  | c :: cs, i =>
    match hexDigitVal c, weightedNibbleSum cs (i + 1) with
    | some d, some rest => some (d * (i % 2 + 1) + rest)
    | _, _ => none

/-- The final masking in _append_checksum: (total - 2*255) & 0xFF. -/
def checksumByte (total : Nat) : Nat := (((total : Int) - 2 * 255) % 256).toNat

/-- ZenkeoAC._append_checksum: append " xx" where xx is the checksum byte of
the space-stripped digits, formatted "{:02x}". -/
def append_checksum (s : List Char) : Option (List Char) :=
  (weightedNibbleSum (stripSpaces s) 0).map
    (fun total => s ++ ' ' :: pyFormat02x (checksumByte total))

/-- Initial value of the ZenkeoAC._seq counter set in __init__. -/
def initial_seq : Nat := 0

/-- ZenkeoAC._get_seq: returns the hex text "00 00 00 xx" for the current
counter (formatted "{:02x}") and the counter incremented mod 256. -/
def get_seq (s : Nat) : List Char × Nat :=
  ("00 00 00 ".data ++ pyFormat02x s, (s + 1) % 256)

/-- Python str.split(" "): split on every single space, keeping empty
groups. -/
def splitOnSpace : List Char → List (List Char)
  | [] => [[]]
  | c :: rest =>
    match splitOnSpace rest with
    | [] => [[]]
    | g :: gs => if c = ' ' then [] :: g :: gs else (c :: g) :: gs

/-- Python int(s, 16) on a nonempty string of hex digits. -/
def hexStrToNat (cs : List Char) : Option Nat :=
  if cs = [] then none
  else cs.foldl (fun acc c =>
    match acc, hexDigitVal c with
    | some a, some d => some (16 * a + d)
    | _, _ => none) (some 0)

/-- The int passed by _send_request to the frame builder:
int(seq.split(" ")[-1], 16) on the _get_seq text for counter s. -/
def seq_arg (s : Nat) : Option Nat :=
  hexStrToNat ((splitOnSpace (get_seq s).1).getLastD [])

/-- State of the counter after k sequence allocations starting from s0. -/
def seq_state_after (s0 : Nat) : Nat → Nat
  | 0 => s0
  | k + 1 => (get_seq (seq_state_after s0 k)).2

/-- The set-state payload text built inside ZenkeoAC.change_state before
the checksum is appended: the fixed prefix, then one "00 0x" group per
mode / fan speed / limits / power / health, then "00 00 00 0x" with the
hex rendering of target_temp - 16. -/
def state_command_body (mode : Mode) (fan_speed : FanSpeed) (limits : Limits)
    (power health : Bool) (target_temp : Int) : List Char :=
  "ff ff 22 00 00 00 00 00 00 01 4d 5f 00 00 00 00 00 00 00 00 00 00 ".data
  ++ "00 0".data ++ [Nat.digitChar mode.val] ++ [' ']
  ++ "00 0".data ++ [Nat.digitChar fan_speed.val] ++ [' ']
  ++ "00 0".data ++ [Nat.digitChar limits.val] ++ [' ']
  ++ "00 0".data ++ [Nat.digitChar (if power then 1 else 0)] ++ [' ']
  ++ "00 0".data ++ [Nat.digitChar (if health then 1 else 0)] ++ [' ']
  ++ "00 00 00 0".data ++ pyFormatX (target_temp - 16)

/-- The checksummed set-state payload text of ZenkeoAC.change_state. -/
def change_state_command (mode : Mode) (fan_speed : FanSpeed) (limits : Limits)
    (power health : Bool) (target_temp : Int) : Option (List Char) :=
  append_checksum (state_command_body mode fan_speed limits power health target_temp)

/-- The checksummed dummy set-state payload text built inside
ZenkeoAC.get_state, with its literal field values (mode COOL, fan AUTO,
limits OFF, power 0, health 0, target 21). -/
def get_state_command : Option (List Char) :=
  append_checksum (
    "ff ff 22 00 00 00 00 00 00 01 4d 5f 00 00 00 00 00 00 00 00 00 00 ".data
    ++ "00 0".data ++ [Nat.digitChar Mode.COOL.val] ++ [' ']
    ++ "00 0".data ++ [Nat.digitChar FanSpeed.AUTO.val] ++ [' ']
    ++ "00 0".data ++ [Nat.digitChar Limits.OFF.val] ++ [' ']
    ++ "00 0".data ++ [Nat.digitChar 0] ++ [' ']
    ++ "00 0".data ++ [Nat.digitChar 0] ++ [' ']
    ++ "00 00 00 0".data ++ pyFormatX (21 - 16))

/-- The frame construction shared verbatim by every operation's command
lambda: magic, two (plus one) 16-byte zero blocks, MAC block, sequence
field, length field, payload, all joined by _build_command. -/
def build_frame (sm : List Char) (seqv : Nat) (payload : List Char) : Option (List Nat) :=
  (len4 payload).bind (fun lf =>
    build_command
      [ "00 00 27 14 00 00 00 00".data,
        "00 00 00 00 00 00 00 00 00 00 00 00 00 00 00 00".data,
        "00 00 00 00 00 00 00 00 00 00 00 00 00 00 00 00".data,
        mac_to_hex sm,
        "00 00 00 00 00 00 00 00 00 00 00 00 00 00 00 00".data,
        order_byte seqv,
        lf,
        payload ])

/-- Payload text of ZenkeoAC.hello. -/
def hello_payload : List Char := "ff ff 0a 00 00 00 00 00 00 01 4d 01 59".data

/-- Payload text of ZenkeoAC.init. -/
def init_payload : List Char := "ff ff 08 00 00 00 00 00 00 73 7b".data

/-- Payload text of ZenkeoAC.turn_on. -/
def turn_on_payload : List Char := "ff ff 0a 00 00 00 00 00 00 01 4d 02 5a".data

/-- Payload text of ZenkeoAC.turn_off. -/
def turn_off_payload : List Char := "ff ff 0a 00 00 00 00 00 00 01 4d 03 5b".data

/-- The frame sent by ZenkeoAC.hello for a given stored MAC and sequence. -/
def hello_frame (sm : List Char) (seqv : Nat) : Option (List Nat) :=
  build_frame sm seqv hello_payload

/-- The frame sent by ZenkeoAC.init. -/
def init_frame (sm : List Char) (seqv : Nat) : Option (List Nat) :=
  build_frame sm seqv init_payload

/-- The frame sent by ZenkeoAC.turn_on. -/
def turn_on_frame (sm : List Char) (seqv : Nat) : Option (List Nat) :=
  build_frame sm seqv turn_on_payload

/-- The frame sent by ZenkeoAC.turn_off. -/
def turn_off_frame (sm : List Char) (seqv : Nat) : Option (List Nat) :=
  build_frame sm seqv turn_off_payload

/-- The frame sent by ZenkeoAC.get_state. -/
def get_state_frame (sm : List Char) (seqv : Nat) : Option (List Nat) :=
  get_state_command.bind (build_frame sm seqv)

/-- The frame sent by ZenkeoAC.change_state. -/
def change_state_frame (sm : List Char) (seqv : Nat) (mode : Mode) (fan_speed : FanSpeed)
    (limits : Limits) (power health : Bool) (target_temp : Int) : Option (List Nat) :=
  (change_state_command mode fan_speed limits power health target_temp).bind
    (build_frame sm seqv)

/-- Recognizer for the 4-byte state marker ff ff 22 00 at the head of a
byte string. -/
def startsWithMarker : List Nat → Bool
  | 0xff :: 0xff :: 0x22 :: 0x00 :: _ => true
  | _ => false

/-- Python response.find(b"xff xff x22 x00"): index of the first occurrence
of the marker, none when absent. -/
def findMarker : List Nat → Option Nat
  | [] => none
  | b :: rest =>
    if startsWithMarker (b :: rest) then some 0
    else (findMarker rest).map (· + 1)

/-- The three places ZenkeoAC._parse_state returns None: marker missing,
not enough bytes for the fixed layout, or a ValueError from an
enum-by-value lookup. -/
inductive ParseFailure
  | markerNotFound | truncated | invalidEnum
deriving DecidableEq

/-- Big-endian unsigned 16-bit field at byte offset i (struct format H). -/
def u16 (r : List Nat) (i : Nat) : Nat := 256 * r.getD i 0 + r.getD (i + 1) 0

/-- ZenkeoAC._parse_state with the reason of each None return made
explicit: find the marker, check that 32 bytes (struct format
">8xH8xHHHHH2xH") remain after it, unpack, and convert the fan-speed and
mode codes through their enums.  The limits field is unpacked but not
converted to the Limits enum, mirroring the source, which leaves that
value unused. -/
def parse_state_e (r : List Nat) : Except ParseFailure ZenkeoState :=
  match findMarker r with
  | none => .error .markerNotFound
  | some p =>
    let ds := p + 4
    if r.length < ds + 32 then .error .truncated
    else
      match FanSpeed.ofCode (u16 r (ds + 20)), Mode.ofCode (u16 r (ds + 18)) with
      | some fs, some md =>
        .ok { current_temperature := u16 r (ds + 8)
              target_temperature := u16 r (ds + 30) + 16
              fan_speed := fs
              mode := md
              health := u16 r (ds + 26) % 2 == 1
              power := u16 r (ds + 24) % 2 == 1 }
      | _, _ => .error .invalidEnum

/-- ZenkeoAC._parse_state as seen by callers: a state or None. -/
def parse_state (r : List Nat) : Option ZenkeoState := (parse_state_e r).toOption

/-- The byte string that the payload portion of a change_state frame
denotes: bytes.fromhex of the space-stripped checksummed payload text. -/
def change_state_payload_bytes (mode : Mode) (fan_speed : FanSpeed) (limits : Limits)
    (power health : Bool) (target_temp : Int) : Option (List Nat) :=
  (change_state_command mode fan_speed limits power health target_temp).bind
    (fun cmd => fromHex (stripSpaces cmd))

/-- The byte string of the get_state payload. -/
def get_state_payload_bytes : Option (List Nat) :=
  get_state_command.bind (fun cmd => fromHex (stripSpaces cmd))

/-- Reference checksum from the specification: the payload's hex
representation as nibble digits (high nibble then low nibble of each
byte), digit i weighted by i mod 2 + 1, summed, minus 510, masked to the
low 8 bits. -/
def spec_nibbles (bs : List Nat) : List Nat := bs.flatMap (fun b => [b / 16, b % 16])

/-- Weighted sum of a digit-value sequence per the specification text. -/
def spec_weighted_sum : List Nat → Nat → Nat
  | [], _ => 0
  | d :: ds, i => d * (i % 2 + 1) + spec_weighted_sum ds (i + 1)

/-- Reference checksum byte of a payload body, per the specification. -/
def spec_checksum (bs : List Nat) : Nat :=
  (((spec_weighted_sum (spec_nibbles bs) 0 : Int) - 510) % 256).toNat

end Zenkeo

namespace Zenkeo

/-! Helper lemmas about hex digits and Python-style hex formatting. -/

theorem hexDigitVal_digitChar {n : Nat} (h : n < 16) :
    hexDigitVal (Nat.digitChar n) = some n := by
  interval_cases n <;> decide

theorem digitChar_ne_space {n : Nat} (h : n < 16) :
    (Nat.digitChar n != ' ') = true := by
  interval_cases n <;> decide

theorem hexDigitVal_lt {c : Char} {d : Nat} (h : hexDigitVal c = some d) : d < 16 := by
  unfold hexDigitVal at h
  have e0 : '0'.toNat = 48 := rfl
  have e9 : '9'.toNat = 57 := rfl
  have ea : 'a'.toNat = 97 := rfl
  have ef : 'f'.toNat = 102 := rfl
  have eA : 'A'.toNat = 65 := rfl
  have eF : 'F'.toNat = 70 := rfl
  rw [e0, e9, ea, ef, eA, eF] at h
  split at h
  · simp only [Option.some.injEq] at h
    omega
  · split at h
    · simp only [Option.some.injEq] at h
      omega
    · split at h
      · simp only [Option.some.injEq] at h
        omega
      · exact absurd h (by simp)

theorem toDigitsCore_single {fuel n : Nat} (ds : List Char) (h : n < 16) (hf : 1 ≤ fuel) :
    Nat.toDigitsCore 16 fuel n ds = Nat.digitChar n :: ds := by
  match fuel, hf with
  | fuel + 1, _ =>
    unfold Nat.toDigitsCore
    simp [Nat.div_eq_of_lt h, Nat.mod_eq_of_lt h]

theorem toDigitsCore_double {fuel n : Nat} (ds : List Char) (h16 : 16 ≤ n) (h : n < 256)
    (hf : 2 ≤ fuel) :
    Nat.toDigitsCore 16 fuel n ds = Nat.digitChar (n / 16) :: Nat.digitChar (n % 16) :: ds := by
  match fuel, hf with
  | fuel + 1, _ =>
    unfold Nat.toDigitsCore
    have hne : ¬ (n / 16 = 0) := by omega
    simp only [hne, if_false]
    exact toDigitsCore_single _ (by omega) (by omega)

theorem natHexDigits_single {n : Nat} (h : n < 16) :
    natHexDigits n = [Nat.digitChar n] := by
  unfold natHexDigits Nat.toDigits
  exact toDigitsCore_single _ h (by omega)

theorem natHexDigits_double {n : Nat} (h16 : 16 ≤ n) (h : n < 256) :
    natHexDigits n = [Nat.digitChar (n / 16), Nat.digitChar (n % 16)] := by
  unfold natHexDigits Nat.toDigits
  exact toDigitsCore_double _ h16 h (by omega)

theorem pyFormat02x_digits {n : Nat} (h : n < 256) :
    pyFormat02x n = [Nat.digitChar (n / 16), Nat.digitChar (n % 16)] := by
  unfold pyFormat02x
  split
  · next hlt =>
    rw [natHexDigits_single hlt]
    have h1 : n / 16 = 0 := by omega
    have h2 : n % 16 = n := Nat.mod_eq_of_lt hlt
    rw [h1, h2]
    rfl
  · next hge => exact natHexDigits_double (by omega) h

theorem fromHex_cons2 {c1 c2 : Char} {h l : Nat} (rest : List Char)
    (h1 : hexDigitVal c1 = some h) (h2 : hexDigitVal c2 = some l) :
    fromHex (c1 :: c2 :: rest) = (fromHex rest).map (fun bs => (16 * h + l) :: bs) := by
  have he : fromHex (c1 :: c2 :: rest) =
      match hexDigitVal c1, hexDigitVal c2, fromHex rest with
      | some h, some l, some bs => some ((16 * h + l) :: bs)
      | _, _, _ => none := rfl
  rw [he, h1, h2]
  cases fromHex rest <;> rfl

theorem fromHex_pyFormat02x {n : Nat} (h : n < 256) :
    fromHex (pyFormat02x n) = some [n] := by
  rw [pyFormat02x_digits h,
    fromHex_cons2 [] (hexDigitVal_digitChar (by omega)) (hexDigitVal_digitChar (by omega))]
  have hn : 16 * (n / 16) + n % 16 = n := by omega
  simp [fromHex, hn]

theorem stripSpaces_append (a b : List Char) :
    stripSpaces (a ++ b) = stripSpaces a ++ stripSpaces b := by
  unfold stripSpaces
  exact List.filter_append ..

theorem stripSpaces_pyFormat02x {n : Nat} (h : n < 256) :
    stripSpaces (pyFormat02x n) = pyFormat02x n := by
  rw [pyFormat02x_digits h]
  unfold stripSpaces
  simp [List.filter, digitChar_ne_space (show n / 16 < 16 by omega),
    digitChar_ne_space (show n % 16 < 16 by omega)]

end Zenkeo

namespace Zenkeo

theorem fromHex_cons2_inv {c1 c2 : Char} {rest : List Char} {x : List Nat}
    (hx : fromHex (c1 :: c2 :: rest) = some x) :
    ∃ h l bs, hexDigitVal c1 = some h ∧ hexDigitVal c2 = some l ∧ fromHex rest = some bs ∧
      x = (16 * h + l) :: bs := by
  have he : fromHex (c1 :: c2 :: rest) =
      match hexDigitVal c1, hexDigitVal c2, fromHex rest with
      | some h, some l, some bs => some ((16 * h + l) :: bs)
      | _, _, _ => none := rfl
  rw [he] at hx
  cases hd1 : hexDigitVal c1 <;> rw [hd1] at hx
  · exact absurd hx (by simp)
  cases hd2 : hexDigitVal c2 <;> rw [hd2] at hx
  · exact absurd hx (by simp)
  cases hr : fromHex rest <;> rw [hr] at hx
  · exact absurd hx (by simp)
  simp only [Option.some.injEq] at hx
  exact ⟨_, _, _, rfl, rfl, rfl, hx.symm⟩

theorem fromHex_append_of_some : ∀ (a b : List Char) (x : List Nat), fromHex a = some x →
    fromHex (a ++ b) = (fromHex b).map (fun bs => x ++ bs)
  | [], b, x, hx => by
    simp only [fromHex, Option.some.injEq] at hx
    subst hx
    simp only [List.nil_append]
    cases fromHex b <;> rfl
  | [c], b, x, hx => by
    simp [fromHex] at hx
  | c1 :: c2 :: rest, b, x, hx => by
    obtain ⟨h, l, bs, hd1, hd2, hr, rfl⟩ := fromHex_cons2_inv hx
    have ih := fromHex_append_of_some rest b bs hr
    rw [List.cons_append, List.cons_append, fromHex_cons2 (rest ++ b) hd1 hd2, ih]
    cases fromHex b <;> rfl

theorem fromHex_odd : ∀ (a : List Char), a.length % 2 = 1 → fromHex a = none
  | [], h => by simp at h
  | [c], _ => rfl
  | c1 :: c2 :: rest, h => by
    have h' : rest.length % 2 = 1 := by
      simp only [List.length_cons] at h
      omega
    have hrec := fromHex_odd rest h'
    have he : fromHex (c1 :: c2 :: rest) =
        match hexDigitVal c1, hexDigitVal c2, fromHex rest with
        | some h, some l, some bs => some ((16 * h + l) :: bs)
        | _, _, _ => none := rfl
    rw [he, hrec]
    cases hexDigitVal c1 <;> cases hexDigitVal c2 <;> rfl

theorem wns_none_of_bad {cs : List Char} {c : Char} (hmem : c ∈ cs)
    (hbad : hexDigitVal c = none) : ∀ i, weightedNibbleSum cs i = none := by
  induction cs with
  | nil => cases hmem
  | cons d ds ih =>
    intro i
    have he : weightedNibbleSum (d :: ds) i =
        match hexDigitVal d, weightedNibbleSum ds (i + 1) with
        | some dv, some rest => some (dv * (i % 2 + 1) + rest)
        | _, _ => none := rfl
    rcases List.mem_cons.mp hmem with heq | hmem'
    · subst heq
      rw [he, hbad]
    · rw [he, ih hmem' (i + 1)]
      cases hexDigitVal d <;> rfl

theorem wns_isSome_of_valid {cs : List Char} (h : ∀ c ∈ cs, (hexDigitVal c).isSome) :
    ∀ i, ∃ s, weightedNibbleSum cs i = some s := by
  induction cs with
  | nil => exact fun i => ⟨0, rfl⟩
  | cons d ds ih =>
    intro i
    have hd : (hexDigitVal d).isSome := h d (List.mem_cons_self ..)
    obtain ⟨dv, hdv⟩ := Option.isSome_iff_exists.mp hd
    obtain ⟨rest, hrest⟩ := ih (fun c hc => h c (List.mem_cons_of_mem _ hc)) (i + 1)
    refine ⟨dv * (i % 2 + 1) + rest, ?_⟩
    have he : weightedNibbleSum (d :: ds) i =
        match hexDigitVal d, weightedNibbleSum ds (i + 1) with
        | some dv, some rest => some (dv * (i % 2 + 1) + rest)
        | _, _ => none := rfl
    rw [he, hdv, hrest]

theorem wns_spec : ∀ (cs : List Char) (bs : List Nat), fromHex cs = some bs →
    ∀ i, weightedNibbleSum cs i = some (spec_weighted_sum (spec_nibbles bs) i)
  | [], bs, hx, i => by
    simp only [fromHex, Option.some.injEq] at hx
    subst hx
    rfl
  | [c], bs, hx, i => by
    simp [fromHex] at hx
  | c1 :: c2 :: rest, bs, hx, i => by
    obtain ⟨h, l, bs', hd1, hd2, hr, rfl⟩ := fromHex_cons2_inv hx
    have hlt1 := hexDigitVal_lt hd1
    have hlt2 := hexDigitVal_lt hd2
    have ih := wns_spec rest bs' hr (i + 2)
    have he1 : weightedNibbleSum (c1 :: c2 :: rest) i =
        match hexDigitVal c1, weightedNibbleSum (c2 :: rest) (i + 1) with
        | some dv, some r => some (dv * (i % 2 + 1) + r)
        | _, _ => none := rfl
    have he2 : weightedNibbleSum (c2 :: rest) (i + 1) =
        match hexDigitVal c2, weightedNibbleSum rest (i + 1 + 1) with
        | some dv, some r => some (dv * ((i + 1) % 2 + 1) + r)
        | _, _ => none := rfl
    have ediv : (16 * h + l) / 16 = h := by omega
    have emod : (16 * h + l) % 16 = l := by omega
    have hn : spec_nibbles ((16 * h + l) :: bs') =
        h :: l :: spec_nibbles bs' := by
      simp [spec_nibbles, ediv, emod]
    rw [he1, hd1, he2, hd2, show i + 1 + 1 = i + 2 from rfl, ih, hn]
    rfl

end Zenkeo

namespace Zenkeo

theorem fromHex_pair00 (rest : List Char) :
    fromHex ('0' :: '0' :: rest) = (fromHex rest).map (fun bs => 0 :: bs) := by
  rw [fromHex_cons2 rest (show hexDigitVal '0' = some 0 by decide)
    (show hexDigitVal '0' = some 0 by decide)]

theorem fromHex_pair0d {d : Nat} (hd : d < 16) (rest : List Char) :
    fromHex ('0' :: Nat.digitChar d :: rest) = (fromHex rest).map (fun bs => d :: bs) := by
  rw [fromHex_cons2 rest (show hexDigitVal '0' = some 0 by decide) (hexDigitVal_digitChar hd)]
  cases fromHex rest <;> simp

theorem fromHex_field {d : Nat} (hd : d < 16) (rest : List Char) :
    fromHex ('0' :: '0' :: '0' :: Nat.digitChar d :: rest) =
      (fromHex rest).map (fun bs => 0 :: d :: bs) := by
  rw [fromHex_pair00, fromHex_pair0d hd]
  cases fromHex rest <;> rfl

theorem stripSpaces_digitChar {v : Nat} (h : v < 16) :
    stripSpaces [Nat.digitChar v] = [Nat.digitChar v] := by
  unfold stripSpaces
  simp [List.filter_cons, digitChar_ne_space h]

theorem order_byte_bytes (n : Nat) :
    fromHex (stripSpaces (order_byte n)) = some [0, 0, 0, n % 256] := by
  have he : order_byte n =
      if n % 256 < 16 then "00 00 00 0".data ++ natHexDigits (n % 256)
      else "00 00 00 ".data ++ natHexDigits (n % 256) := rfl
  by_cases hv : n % 256 < 16
  · rw [he, if_pos hv, stripSpaces_append, natHexDigits_single hv,
      show stripSpaces "00 00 00 0".data = "0000000".data from by decide,
      stripSpaces_digitChar hv,
      show ("0000000".data ++ [Nat.digitChar (n % 256)] =
        '0' :: '0' :: '0' :: '0' :: '0' :: '0' :: '0' :: Nat.digitChar (n % 256) :: []) from rfl,
      fromHex_pair00, fromHex_pair00, fromHex_pair00, fromHex_pair0d hv]
    rfl
  · have hlt : n % 256 < 256 := Nat.mod_lt _ (by omega)
    rw [he, if_neg hv, stripSpaces_append, natHexDigits_double (by omega) hlt,
      show stripSpaces "00 00 00 ".data = "000000".data from by decide]
    have hs2 : stripSpaces [Nat.digitChar (n % 256 / 16), Nat.digitChar (n % 256 % 16)] =
        [Nat.digitChar (n % 256 / 16), Nat.digitChar (n % 256 % 16)] := by
      unfold stripSpaces
      simp [List.filter_cons, digitChar_ne_space (show n % 256 / 16 < 16 by omega),
        digitChar_ne_space (show n % 256 % 16 < 16 by omega)]
    rw [hs2,
      show ("000000".data ++ [Nat.digitChar (n % 256 / 16), Nat.digitChar (n % 256 % 16)] =
        '0' :: '0' :: '0' :: '0' :: '0' :: '0' :: Nat.digitChar (n % 256 / 16) ::
          Nat.digitChar (n % 256 % 16) :: []) from rfl,
      fromHex_pair00, fromHex_pair00, fromHex_pair00,
      fromHex_cons2 [] (hexDigitVal_digitChar (show n % 256 / 16 < 16 by omega))
        (hexDigitVal_digitChar (show n % 256 % 16 < 16 by omega))]
    have : 16 * (n % 256 / 16) + n % 256 % 16 = n % 256 := by omega
    simp [fromHex, this]

end Zenkeo

namespace Zenkeo

theorem mode_val_lt (mo : Mode) : mo.val < 16 := by cases mo <;> decide

theorem fan_val_lt (fs : FanSpeed) : fs.val < 16 := by cases fs <;> decide

theorem limits_val_lt (li : Limits) : li.val < 16 := by cases li <;> decide

theorem bool_bit_lt (b : Bool) : (if b then 1 else 0) < 16 := by cases b <;> decide

set_option maxHeartbeats 1000000 in
theorem state_command_body_strip (mo : Mode) (fs : FanSpeed) (li : Limits)
    (pw hl : Bool) (t : Int) :
    stripSpaces (state_command_body mo fs li pw hl t) =
      "ffff22000000000000014d5f00000000000000000000".data
      ++ '0' :: '0' :: '0' :: Nat.digitChar mo.val
      :: '0' :: '0' :: '0' :: Nat.digitChar fs.val
      :: '0' :: '0' :: '0' :: Nat.digitChar li.val
      :: '0' :: '0' :: '0' :: Nat.digitChar (if pw then 1 else 0)
      :: '0' :: '0' :: '0' :: Nat.digitChar (if hl then 1 else 0)
      :: '0' :: '0' :: '0' :: '0' :: '0' :: '0' :: '0'
      :: stripSpaces (pyFormatX (t - 16)) := by
  unfold state_command_body
  simp only [stripSpaces_append]
  rw [show stripSpaces "ff ff 22 00 00 00 00 00 00 01 4d 5f 00 00 00 00 00 00 00 00 00 00 ".data
      = "ffff22000000000000014d5f00000000000000000000".data from by decide]
  simp only [show stripSpaces "00 0".data = "000".data from by decide,
    show stripSpaces [' '] = ([] : List Char) from by decide,
    show stripSpaces "00 00 00 0".data = "0000000".data from by decide,
    stripSpaces_digitChar (mode_val_lt mo), stripSpaces_digitChar (fan_val_lt fs),
    stripSpaces_digitChar (limits_val_lt li), stripSpaces_digitChar (bool_bit_lt pw),
    stripSpaces_digitChar (bool_bit_lt hl)]
  simp [List.append_assoc]

theorem state_command_body_bytes (mo : Mode) (fs : FanSpeed) (li : Limits)
    (pw hl : Bool) {t : Int} (h16 : 16 ≤ t) (h31 : t ≤ 31) :
    fromHex (stripSpaces (state_command_body mo fs li pw hl t)) =
      some (255 :: 255 :: 34 :: 0 :: 0 :: 0 :: 0 :: 0 :: 0 :: 1 :: 77 :: 95 ::
        0 :: 0 :: 0 :: 0 :: 0 :: 0 :: 0 :: 0 :: 0 :: 0 ::
        0 :: mo.val :: 0 :: fs.val :: 0 :: li.val ::
        0 :: (if pw then 1 else 0) :: 0 :: (if hl then 1 else 0) ::
        0 :: 0 :: 0 :: (t - 16).toNat :: []) := by
  rw [state_command_body_strip]
  have htd : (t - 16).toNat < 16 := by omega
  have hpx : stripSpaces (pyFormatX (t - 16)) = [Nat.digitChar (t - 16).toNat] := by
    have hnn : ¬ (t - 16 < 0) := by omega
    have he : pyFormatX (t - 16) = natHexDigits (t - 16).toNat := by
      unfold pyFormatX
      rw [if_neg hnn]
    rw [he, natHexDigits_single htd]
    exact stripSpaces_digitChar htd
  rw [hpx]
  rw [fromHex_append_of_some "ffff22000000000000014d5f00000000000000000000".data _
    [255, 255, 34, 0, 0, 0, 0, 0, 0, 1, 77, 95, 0, 0, 0, 0, 0, 0, 0, 0, 0, 0] (by decide)]
  rw [fromHex_field (mode_val_lt mo), fromHex_field (fan_val_lt fs),
    fromHex_field (limits_val_lt li), fromHex_field (bool_bit_lt pw),
    fromHex_field (bool_bit_lt hl), fromHex_pair00, fromHex_pair00, fromHex_pair00,
    fromHex_pair0d htd]
  rfl

end Zenkeo

namespace Zenkeo

theorem checksumByte_lt (total : Nat) : checksumByte total < 256 := by
  unfold checksumByte
  have h1 : 0 ≤ ((total : Int) - 2 * 255) % 256 := Int.emod_nonneg _ (by omega)
  have h2 : ((total : Int) - 2 * 255) % 256 < 256 := Int.emod_lt_of_pos _ (by omega)
  omega

theorem spec_checksum_lt (bs : List Nat) : spec_checksum bs < 256 :=
  checksumByte_lt (spec_weighted_sum (spec_nibbles bs) 0)

theorem stripSpaces_cons_space (cs : List Char) :
    stripSpaces (' ' :: cs) = stripSpaces cs := by
  unfold stripSpaces
  simp [List.filter_cons]

theorem append_checksum_of_bytes {body : List Char} {bs : List Nat}
    (hb : fromHex (stripSpaces body) = some bs) :
    append_checksum body = some (body ++ ' ' :: pyFormat02x (spec_checksum bs)) := by
  unfold append_checksum
  rw [wns_spec _ _ hb 0]
  rfl

theorem payload_bytes_of_bytes {body : List Char} {bs : List Nat}
    (hb : fromHex (stripSpaces body) = some bs) :
    (append_checksum body).bind (fun cmd => fromHex (stripSpaces cmd)) =
      some (bs ++ [spec_checksum bs]) := by
  rw [append_checksum_of_bytes hb]
  have hb1 : (some (body ++ ' ' :: pyFormat02x (spec_checksum bs))).bind
      (fun cmd => fromHex (stripSpaces cmd)) =
      fromHex (stripSpaces (body ++ ' ' :: pyFormat02x (spec_checksum bs))) := rfl
  rw [hb1, stripSpaces_append, stripSpaces_cons_space,
    stripSpaces_pyFormat02x (spec_checksum_lt bs),
    fromHex_append_of_some _ _ _ hb, fromHex_pyFormat02x (spec_checksum_lt bs)]
  rfl

end Zenkeo

namespace Zenkeo

theorem mode_ofCode_val (mo : Mode) : Mode.ofCode mo.val = some mo := by
  cases mo <;> rfl

theorem fan_ofCode_val (fs : FanSpeed) : FanSpeed.ofCode fs.val = some fs := by
  cases fs <;> rfl

theorem Mode.ofCode_ge5 {n : Nat} (h : 5 ≤ n) : Mode.ofCode n = none := by
  obtain ⟨m, rfl⟩ : ∃ m, n = m + 5 := ⟨n - 5, by omega⟩
  rfl

theorem FanSpeed.ofCode_ge4 {n : Nat} (h : 4 ≤ n) : FanSpeed.ofCode n = none := by
  obtain ⟨m, rfl⟩ : ∃ m, n = m + 4 := ⟨n - 4, by omega⟩
  rfl

theorem parse_state_e_shape (m f l p h td : Nat) (extra : List Nat) :
    parse_state_e (255 :: 255 :: 34 :: 0 :: 0 :: 0 :: 0 :: 0 :: 0 :: 1 :: 77 :: 95 ::
        0 :: 0 :: 0 :: 0 :: 0 :: 0 :: 0 :: 0 :: 0 :: 0 ::
        0 :: m :: 0 :: f :: 0 :: l :: 0 :: p :: 0 :: h :: 0 :: 0 :: 0 :: td :: extra) =
      match FanSpeed.ofCode f, Mode.ofCode m with
      | some fsv, some mdv =>
        .ok { current_temperature := 0, target_temperature := td + 16, fan_speed := fsv,
              mode := mdv, health := h % 2 == 1, power := p % 2 == 1 }
      | _, _ => .error .invalidEnum := by
  have hfind : findMarker (255 :: 255 :: 34 :: 0 :: 0 :: 0 :: 0 :: 0 :: 0 :: 1 :: 77 :: 95 ::
      0 :: 0 :: 0 :: 0 :: 0 :: 0 :: 0 :: 0 :: 0 :: 0 ::
      0 :: m :: 0 :: f :: 0 :: l :: 0 :: p :: 0 :: h :: 0 :: 0 :: 0 :: td :: extra) =
      some 0 := rfl
  simp only [parse_state_e, hfind]
  have hlen : ¬ ((255 :: 255 :: 34 :: 0 :: 0 :: 0 :: 0 :: 0 :: 0 :: 1 :: 77 :: 95 ::
      0 :: 0 :: 0 :: 0 :: 0 :: 0 :: 0 :: 0 :: 0 :: 0 ::
      0 :: m :: 0 :: f :: 0 :: l :: 0 :: p :: 0 :: h :: 0 :: 0 :: 0 :: td :: extra).length
      < 0 + 4 + 32) := by
    simp only [List.length_cons]
    omega
  rw [if_neg hlen]
  have e18 : u16 (255 :: 255 :: 34 :: 0 :: 0 :: 0 :: 0 :: 0 :: 0 :: 1 :: 77 :: 95 ::
      0 :: 0 :: 0 :: 0 :: 0 :: 0 :: 0 :: 0 :: 0 :: 0 ::
      0 :: m :: 0 :: f :: 0 :: l :: 0 :: p :: 0 :: h :: 0 :: 0 :: 0 :: td :: extra)
      (0 + 4 + 18) = m := by
    show 256 * 0 + m = m
    omega
  have e20 : u16 (255 :: 255 :: 34 :: 0 :: 0 :: 0 :: 0 :: 0 :: 0 :: 1 :: 77 :: 95 ::
      0 :: 0 :: 0 :: 0 :: 0 :: 0 :: 0 :: 0 :: 0 :: 0 ::
      0 :: m :: 0 :: f :: 0 :: l :: 0 :: p :: 0 :: h :: 0 :: 0 :: 0 :: td :: extra)
      (0 + 4 + 20) = f := by
    show 256 * 0 + f = f
    omega
  have e8 : u16 (255 :: 255 :: 34 :: 0 :: 0 :: 0 :: 0 :: 0 :: 0 :: 1 :: 77 :: 95 ::
      0 :: 0 :: 0 :: 0 :: 0 :: 0 :: 0 :: 0 :: 0 :: 0 ::
      0 :: m :: 0 :: f :: 0 :: l :: 0 :: p :: 0 :: h :: 0 :: 0 :: 0 :: td :: extra)
      (0 + 4 + 8) = 0 := by
    show 256 * 0 + 0 = 0
    omega
  have e30 : u16 (255 :: 255 :: 34 :: 0 :: 0 :: 0 :: 0 :: 0 :: 0 :: 1 :: 77 :: 95 ::
      0 :: 0 :: 0 :: 0 :: 0 :: 0 :: 0 :: 0 :: 0 :: 0 ::
      0 :: m :: 0 :: f :: 0 :: l :: 0 :: p :: 0 :: h :: 0 :: 0 :: 0 :: td :: extra)
      (0 + 4 + 30) = td := by
    show 256 * 0 + td = td
    omega
  have e24 : u16 (255 :: 255 :: 34 :: 0 :: 0 :: 0 :: 0 :: 0 :: 0 :: 1 :: 77 :: 95 ::
      0 :: 0 :: 0 :: 0 :: 0 :: 0 :: 0 :: 0 :: 0 :: 0 ::
      0 :: m :: 0 :: f :: 0 :: l :: 0 :: p :: 0 :: h :: 0 :: 0 :: 0 :: td :: extra)
      (0 + 4 + 24) = p := by
    show 256 * 0 + p = p
    omega
  have e26 : u16 (255 :: 255 :: 34 :: 0 :: 0 :: 0 :: 0 :: 0 :: 0 :: 1 :: 77 :: 95 ::
      0 :: 0 :: 0 :: 0 :: 0 :: 0 :: 0 :: 0 :: 0 :: 0 ::
      0 :: m :: 0 :: f :: 0 :: l :: 0 :: p :: 0 :: h :: 0 :: 0 :: 0 :: td :: extra)
      (0 + 4 + 26) = h := by
    show 256 * 0 + h = h
    omega
  rw [e18, e20, e8, e30, e24, e26]

end Zenkeo

namespace Zenkeo

/-- C1: Encode/parse round-trip.  For every power, mode, fanSpeed, limits,
health and every targetTemp with 16 <= targetTemp <= 31, parsing a response
buffer that consists exactly of the set-state payload built by change_state
(which begins with the marker FF FF 22 00) succeeds and yields a state with
targetTemperature = targetTemp, mode, fanSpeed, power and health as
requested (and current temperature decoded as 0 from the zero padding). -/
theorem c1_encode_parse_roundtrip (pw : Bool) (mo : Mode) (fs : FanSpeed) (li : Limits)
    (hl : Bool) (t : Int) (h16 : 16 ≤ t) (h31 : t ≤ 31) :
    (change_state_payload_bytes mo fs li pw hl t).bind parse_state =
      some { current_temperature := 0, target_temperature := t.toNat, fan_speed := fs,
             mode := mo, health := hl, power := pw } := by
  have hbody := state_command_body_bytes mo fs li pw hl h16 h31
  have hpb := payload_bytes_of_bytes hbody
  have hcc : change_state_payload_bytes mo fs li pw hl t =
      (append_checksum (state_command_body mo fs li pw hl t)).bind
        (fun cmd => fromHex (stripSpaces cmd)) := rfl
  rw [hcc, hpb]
  have hbind : (some ((255 :: 255 :: 34 :: 0 :: 0 :: 0 :: 0 :: 0 :: 0 :: 1 :: 77 :: 95 ::
      0 :: 0 :: 0 :: 0 :: 0 :: 0 :: 0 :: 0 :: 0 :: 0 ::
      0 :: mo.val :: 0 :: fs.val :: 0 :: li.val ::
      0 :: (if pw then 1 else 0) :: 0 :: (if hl then 1 else 0) ::
      0 :: 0 :: 0 :: (t - 16).toNat :: []) ++
      [spec_checksum (255 :: 255 :: 34 :: 0 :: 0 :: 0 :: 0 :: 0 :: 0 :: 1 :: 77 :: 95 ::
      0 :: 0 :: 0 :: 0 :: 0 :: 0 :: 0 :: 0 :: 0 :: 0 ::
      0 :: mo.val :: 0 :: fs.val :: 0 :: li.val ::
      0 :: (if pw then 1 else 0) :: 0 :: (if hl then 1 else 0) ::
      0 :: 0 :: 0 :: (t - 16).toNat :: [])])).bind parse_state =
      parse_state (255 :: 255 :: 34 :: 0 :: 0 :: 0 :: 0 :: 0 :: 0 :: 1 :: 77 :: 95 ::
      0 :: 0 :: 0 :: 0 :: 0 :: 0 :: 0 :: 0 :: 0 :: 0 ::
      0 :: mo.val :: 0 :: fs.val :: 0 :: li.val ::
      0 :: (if pw then 1 else 0) :: 0 :: (if hl then 1 else 0) ::
      0 :: 0 :: 0 :: (t - 16).toNat ::
      [spec_checksum (255 :: 255 :: 34 :: 0 :: 0 :: 0 :: 0 :: 0 :: 0 :: 1 :: 77 :: 95 ::
      0 :: 0 :: 0 :: 0 :: 0 :: 0 :: 0 :: 0 :: 0 :: 0 ::
      0 :: mo.val :: 0 :: fs.val :: 0 :: li.val ::
      0 :: (if pw then 1 else 0) :: 0 :: (if hl then 1 else 0) ::
      0 :: 0 :: 0 :: (t - 16).toNat :: [])]) := rfl
  rw [hbind]
  unfold parse_state
  rw [parse_state_e_shape, mode_ofCode_val, fan_ofCode_val]
  have htt : (t - 16).toNat + 16 = t.toNat := by omega
  have hp2 : ((if pw then 1 else 0 : Nat) % 2 == 1) = pw := by cases pw <;> rfl
  have hh2 : ((if hl then 1 else 0 : Nat) % 2 == 1) = hl := by cases hl <;> rfl
  simp [Except.toOption, htt, hp2, hh2]

/-- Witness for C1 at the two inputs named by the claim:
(power=true, mode=COOL, fanSpeed=AUTO, targetTemp=22, health=false,
limits=OFF) and (power=true, mode=HEAT, fanSpeed=MIN, targetTemp=19). -/
theorem c1_encode_parse_roundtrip_witness :
    (change_state_payload_bytes .COOL .AUTO .OFF true false 22).bind parse_state =
      some { current_temperature := 0, target_temperature := 22, fan_speed := .AUTO,
             mode := .COOL, health := false, power := true } ∧
    (change_state_payload_bytes .HEAT .MIN .OFF true false 19).bind parse_state =
      some { current_temperature := 0, target_temperature := 19, fan_speed := .MIN,
             mode := .HEAT, health := false, power := true } :=
  ⟨c1_encode_parse_roundtrip true .COOL .AUTO .OFF false 22 (by decide) (by decide),
   c1_encode_parse_roundtrip true .HEAT .MIN .OFF false 19 (by decide) (by decide)⟩

/-- C2: Checksum formula.  For every set-state payload body (any arguments
whose body text is a well-formed hex string, denoting the byte string bs),
the appended checksum byte equals the reference definition spec_checksum
computed over the nibble digits of bs, and exactly one such byte is
appended as the final byte of the payload. -/
theorem c2_checksum_formula (mo : Mode) (fs : FanSpeed) (li : Limits)
    (pw hl : Bool) (t : Int) (bs : List Nat)
    (hb : fromHex (stripSpaces (state_command_body mo fs li pw hl t)) = some bs) :
    change_state_command mo fs li pw hl t =
      some (state_command_body mo fs li pw hl t ++
        ' ' :: pyFormat02x (spec_checksum bs)) ∧
    change_state_payload_bytes mo fs li pw hl t = some (bs ++ [spec_checksum bs]) := by
  constructor
  · exact append_checksum_of_bytes hb
  · have hcc : change_state_payload_bytes mo fs li pw hl t =
        (append_checksum (state_command_body mo fs li pw hl t)).bind
          (fun cmd => fromHex (stripSpaces cmd)) := rfl
    rw [hcc]
    exact payload_bytes_of_bytes hb

/-- Witness for C2 at mode=COOL, fanSpeed=AUTO, limits=OFF, power=true,
health=false, targetTemp=22, with the concrete body byte string. -/
theorem c2_checksum_formula_witness :
    fromHex (stripSpaces (state_command_body .COOL .AUTO .OFF true false 22)) =
      some [255, 255, 34, 0, 0, 0, 0, 0, 0, 1, 77, 95, 0, 0, 0, 0, 0, 0, 0, 0, 0, 0,
        0, 1, 0, 3, 0, 0, 0, 1, 0, 0, 0, 0, 0, 6] ∧
    change_state_payload_bytes .COOL .AUTO .OFF true false 22 =
      some ([255, 255, 34, 0, 0, 0, 0, 0, 0, 1, 77, 95, 0, 0, 0, 0, 0, 0, 0, 0, 0, 0,
        0, 1, 0, 3, 0, 0, 0, 1, 0, 0, 0, 0, 0, 6] ++
        [spec_checksum [255, 255, 34, 0, 0, 0, 0, 0, 0, 1, 77, 95, 0, 0, 0, 0, 0, 0, 0, 0, 0, 0,
          0, 1, 0, 3, 0, 0, 0, 1, 0, 0, 0, 0, 0, 6]]) :=
  ⟨by decide,
   (c2_checksum_formula .COOL .AUTO .OFF true false 22 _ (by decide)).2⟩

end Zenkeo

namespace Zenkeo

/-- C6: Truncation rejection.  For every response buffer in which the
marker FF FF 22 00 is found at position p but fewer than the 32 bytes of
the fixed layout remain after the marker, parsing fails with the truncated
parse failure and the caller-visible result carries no state. -/
theorem c6_truncation_rejected (r : List Nat) (p : Nat)
    (hp : findMarker r = some p) (hlen : r.length < p + 36) :
    parse_state_e r = .error .truncated ∧ parse_state r = none := by
  have h1 : parse_state_e r = .error .truncated := by
    simp only [parse_state_e, hp]
    rw [if_pos (show r.length < p + 4 + 32 by omega)]
  refine ⟨h1, ?_⟩
  unfold parse_state
  rw [h1]
  rfl

/-- Witness for C6: the bare marker with no trailing bytes is rejected as
truncated. -/
theorem c6_truncation_rejected_witness :
    parse_state_e [255, 255, 34, 0] = .error .truncated ∧
    parse_state [255, 255, 34, 0] = none :=
  c6_truncation_rejected [255, 255, 34, 0] 0 (by decide) (by decide)

/-- C4 (amended): Enum-range rejection for mode and fan speed.  With the
marker found at p and at least 32 bytes after it, a decoded mode code
outside 0..4 or a decoded fan-speed code outside 0..3 makes parsing fail
with the invalid-enum parse failure, and no state is returned.  (The
limits code is unpacked but never converted to the Limits enum, so an
out-of-range limits code alone does not cause a failure; see the
counterexample.) -/
theorem c4_enum_rejection_amended (r : List Nat) (p : Nat)
    (hp : findMarker r = some p) (hlen : p + 36 ≤ r.length)
    (hbad : 5 ≤ u16 r (p + 4 + 18) ∨ 4 ≤ u16 r (p + 4 + 20)) :
    parse_state_e r = .error .invalidEnum ∧ parse_state r = none := by
  have h1 : parse_state_e r = .error .invalidEnum := by
    simp only [parse_state_e, hp]
    rw [if_neg (show ¬ (r.length < p + 4 + 32) by omega)]
    rcases hbad with hm | hf
    · rw [Mode.ofCode_ge5 hm]
      cases FanSpeed.ofCode (u16 r (p + 4 + 20)) <;> rfl
    · rw [FanSpeed.ofCode_ge4 hf]
  refine ⟨h1, ?_⟩
  unfold parse_state
  rw [h1]
  rfl

/-- Witness for C4 (amended): a buffer with mode code 5 (all other fields
in range) is rejected as an invalid enum. -/
theorem c4_enum_rejection_amended_witness :
    parse_state_e [255, 255, 34, 0, 0, 0, 0, 0, 0, 0, 0, 25, 0, 0, 0, 0, 0, 0, 0, 0, 0, 0,
      0, 5, 0, 0, 0, 0, 0, 1, 0, 0, 0, 0, 0, 5] = .error .invalidEnum ∧
    parse_state [255, 255, 34, 0, 0, 0, 0, 0, 0, 0, 0, 25, 0, 0, 0, 0, 0, 0, 0, 0, 0, 0,
      0, 5, 0, 0, 0, 0, 0, 1, 0, 0, 0, 0, 0, 5] = none :=
  c4_enum_rejection_amended _ 0 (by decide) (by decide) (Or.inl (by decide))

/-- Counterexample to C4 as stated: a response whose limits code is 2
(outside 0..1), marker present with 32 bytes after it, is NOT rejected:
parsing succeeds and returns a state, because _parse_state never converts
the unpacked limits value through the Limits enum. -/
theorem c4_limits_not_rejected_counterexample :
    findMarker [255, 255, 34, 0, 0, 0, 0, 0, 0, 0, 0, 0, 0, 25, 0, 0, 0, 0, 0, 0, 0, 0,
      0, 0, 0, 0, 0, 2, 0, 1, 0, 0, 0, 0, 0, 5] = some 0 ∧
    u16 [255, 255, 34, 0, 0, 0, 0, 0, 0, 0, 0, 0, 0, 25, 0, 0, 0, 0, 0, 0, 0, 0,
      0, 0, 0, 0, 0, 2, 0, 1, 0, 0, 0, 0, 0, 5] (0 + 4 + 22) = 2 ∧
    parse_state [255, 255, 34, 0, 0, 0, 0, 0, 0, 0, 0, 0, 0, 25, 0, 0, 0, 0, 0, 0, 0, 0,
      0, 0, 0, 0, 0, 2, 0, 1, 0, 0, 0, 0, 0, 5] =
      some { current_temperature := 25, target_temperature := 21, fan_speed := .MAX,
             mode := .SMART, health := false, power := true } := by
  decide

set_option maxRecDepth 4000 in
/-- C9: get-state as innocuous set-state.  The payload text (and therefore
the payload byte string, checksum included) sent by get_state is exactly
the payload built by change_state for power=off, mode=COOL, fanSpeed=AUTO,
targetTemp=21, health=false, limits=OFF; there is no distinct read-only
query payload. -/
theorem c9_get_state_is_innocuous_set_state :
    get_state_command = change_state_command .COOL .AUTO .OFF false false 21 ∧
    get_state_payload_bytes = change_state_payload_bytes .COOL .AUTO .OFF false false 21 := by
  constructor <;> decide

end Zenkeo

namespace Zenkeo

theorem seq_state_mod (k : Nat) : seq_state_after initial_seq k = k % 256 := by
  induction k with
  | zero => rfl
  | succ k ih =>
    show (get_seq (seq_state_after initial_seq k)).2 = (k + 1) % 256
    rw [ih]
    show (k % 256 + 1) % 256 = (k + 1) % 256
    omega

theorem seq_arg_lt {s : Nat} (hs : s < 256) : seq_arg s = some s := by
  have hd1 : s / 16 < 16 := by omega
  have hd2 : s % 16 < 16 := by omega
  have h1 : ¬ (Nat.digitChar (s / 16) = ' ') := by
    have := digitChar_ne_space hd1
    simpa using this
  have h2 : ¬ (Nat.digitChar (s % 16) = ' ') := by
    have := digitChar_ne_space hd2
    simpa using this
  have hpf : (get_seq s).1 = "00 00 00 ".data ++
      [Nat.digitChar (s / 16), Nat.digitChar (s % 16)] := by
    show "00 00 00 ".data ++ pyFormat02x s = _
    rw [pyFormat02x_digits hs]
  unfold seq_arg
  rw [hpf]
  have hsplit : splitOnSpace ("00 00 00 ".data ++
      [Nat.digitChar (s / 16), Nat.digitChar (s % 16)]) =
      [['0', '0'], ['0', '0'], ['0', '0'],
        [Nat.digitChar (s / 16), Nat.digitChar (s % 16)]] := by
    show splitOnSpace ('0' :: '0' :: ' ' :: '0' :: '0' :: ' ' :: '0' :: '0' :: ' ' ::
      [Nat.digitChar (s / 16), Nat.digitChar (s % 16)]) = _
    simp [splitOnSpace, h1, h2]
  rw [hsplit]
  show hexStrToNat [Nat.digitChar (s / 16), Nat.digitChar (s % 16)] = some s
  unfold hexStrToNat
  rw [if_neg (by simp)]
  simp only [List.foldl, hexDigitVal_digitChar hd1, hexDigitVal_digitChar hd2]
  have : 16 * (16 * 0 + s / 16) + s % 16 = s := by omega
  rw [this]

/-- C5: Sequence monotonicity.  The counter of a fresh session starts at 0;
after k sequence allocations the counter is k mod 256, the integer handed
to the frame builder by the k-th send is k mod 256, and the sequence field
it renders on the wire is the 4-byte string of three zero bytes followed
by that counter byte.  The step function get_seq returns only the text and
the incremented counter, so the counter is the only state it changes. -/
theorem c5_sequence_monotonic (k : Nat) :
    initial_seq = 0 ∧
    seq_state_after initial_seq k = k % 256 ∧
    seq_arg (seq_state_after initial_seq k) = some (k % 256) ∧
    fromHex (stripSpaces (order_byte (k % 256))) = some [0, 0, 0, k % 256] := by
  refine ⟨rfl, seq_state_mod k, ?_, ?_⟩
  · rw [seq_state_mod k]
    exact seq_arg_lt (by omega)
  · rw [order_byte_bytes]
    have h : k % 256 % 256 = k % 256 := by omega
    rw [h]

end Zenkeo

namespace Zenkeo

theorem pyFormat02x_length {n : Nat} (h : n < 256) : (pyFormat02x n).length = 2 := by
  rw [pyFormat02x_digits h]
  rfl

theorem strip_body_mem_dash (mo : Mode) (fs : FanSpeed) (li : Limits)
    (pw hl : Bool) {t : Int} (ht : t < 16) :
    '-' ∈ stripSpaces (state_command_body mo fs li pw hl t) := by
  rw [state_command_body_strip]
  have hneg : pyFormatX (t - 16) = '-' :: natHexDigits (t - 16).natAbs := by
    unfold pyFormatX
    rw [if_pos (by omega)]
  have hm : '-' ∈ stripSpaces (pyFormatX (t - 16)) := by
    rw [hneg]
    unfold stripSpaces
    rw [List.filter_cons]
    simp
  simp only [List.mem_append, List.mem_cons]
  tauto

theorem change_state_checksum_fails (mo : Mode) (fs : FanSpeed) (li : Limits)
    (pw hl : Bool) {t : Int} (ht : t < 16) :
    append_checksum (state_command_body mo fs li pw hl t) = none := by
  unfold append_checksum
  rw [wns_none_of_bad (strip_body_mem_dash mo fs li pw hl ht)
    (show hexDigitVal '-' = none by decide) 0]
  rfl

theorem strip_body_length_two_digit (mo : Mode) (fs : FanSpeed) (li : Limits)
    (pw hl : Bool) {t : Int} (h32 : 32 ≤ t) (h271 : t ≤ 271) :
    (stripSpaces (state_command_body mo fs li pw hl t)).length = 73 := by
  have htd16 : 16 ≤ (t - 16).toNat := by omega
  have htd255 : (t - 16).toNat < 256 := by omega
  have hpx : pyFormatX (t - 16) =
      [Nat.digitChar ((t - 16).toNat / 16), Nat.digitChar ((t - 16).toNat % 16)] := by
    unfold pyFormatX
    rw [if_neg (by omega), natHexDigits_double htd16 htd255]
  have hspx : stripSpaces (pyFormatX (t - 16)) = pyFormatX (t - 16) := by
    rw [hpx]
    unfold stripSpaces
    simp [List.filter_cons, digitChar_ne_space (show (t - 16).toNat / 16 < 16 by omega),
      digitChar_ne_space (show (t - 16).toNat % 16 < 16 by omega)]
  rw [state_command_body_strip, hspx, hpx]
  simp

/-- C10: Implicit target-temperature precondition of change_state.  For
16 <= targetTemp <= 31 the payload is well formed and its temperature
field is the byte targetTemp - 16 (low nibble targetTemp - 16, high
nibble zero); for targetTemp < 16 the hex text contains a minus sign, so
already the checksum computation fails and no frame is emitted; for
32 <= targetTemp <= 271 the rendered temperature takes two hex digits,
the resulting text has odd digit count, bytes.fromhex fails on it and no
frame is emitted. -/
theorem c10_target_temp_precondition (mo : Mode) (fs : FanSpeed) (li : Limits)
    (pw hl : Bool) (t : Int) :
    (16 ≤ t → t ≤ 31 →
      change_state_payload_bytes mo fs li pw hl t =
        some ((255 :: 255 :: 34 :: 0 :: 0 :: 0 :: 0 :: 0 :: 0 :: 1 :: 77 :: 95 ::
          0 :: 0 :: 0 :: 0 :: 0 :: 0 :: 0 :: 0 :: 0 :: 0 ::
          0 :: mo.val :: 0 :: fs.val :: 0 :: li.val ::
          0 :: (if pw then 1 else 0) :: 0 :: (if hl then 1 else 0) ::
          0 :: 0 :: 0 :: (t - 16).toNat :: []) ++
          [spec_checksum (255 :: 255 :: 34 :: 0 :: 0 :: 0 :: 0 :: 0 :: 0 :: 1 :: 77 :: 95 ::
          0 :: 0 :: 0 :: 0 :: 0 :: 0 :: 0 :: 0 :: 0 :: 0 ::
          0 :: mo.val :: 0 :: fs.val :: 0 :: li.val ::
          0 :: (if pw then 1 else 0) :: 0 :: (if hl then 1 else 0) ::
          0 :: 0 :: 0 :: (t - 16).toNat :: [])]) ∧ (t - 16).toNat < 16) ∧
    (t < 16 →
      append_checksum (state_command_body mo fs li pw hl t) = none ∧
      ∀ sm seqv, change_state_frame sm seqv mo fs li pw hl t = none) ∧
    (32 ≤ t → t ≤ 271 →
      (∀ cmd, change_state_command mo fs li pw hl t = some cmd →
        fromHex (stripSpaces cmd) = none) ∧
      ∀ sm seqv, change_state_frame sm seqv mo fs li pw hl t = none) := by
  refine ⟨?_, ?_, ?_⟩
  · intro h16 h31
    refine ⟨?_, by omega⟩
    exact payload_bytes_of_bytes (state_command_body_bytes mo fs li pw hl h16 h31)
  · intro ht
    have hcc : change_state_command mo fs li pw hl t = none :=
      change_state_checksum_fails mo fs li pw hl ht
    refine ⟨change_state_checksum_fails mo fs li pw hl ht, ?_⟩
    intro sm seqv
    show (change_state_command mo fs li pw hl t).bind (build_frame sm seqv) = none
    rw [hcc]
    rfl
  · intro h32 h271
    have hodd : ∀ cmd, change_state_command mo fs li pw hl t = some cmd →
        fromHex (stripSpaces cmd) = none := by
      intro cmd hc
      have hc' : (weightedNibbleSum (stripSpaces (state_command_body mo fs li pw hl t)) 0).map
          (fun total => state_command_body mo fs li pw hl t ++
            ' ' :: pyFormat02x (checksumByte total)) = some cmd := hc
      cases hw : weightedNibbleSum (stripSpaces (state_command_body mo fs li pw hl t)) 0 with
      | none =>
        rw [hw] at hc'
        exact absurd hc' (by simp)
      | some total =>
        rw [hw] at hc'
        simp only [Option.map_some', Option.some.injEq] at hc'
        subst hc'
        rw [stripSpaces_append, stripSpaces_cons_space,
          stripSpaces_pyFormat02x (checksumByte_lt total)]
        apply fromHex_odd
        rw [List.length_append, strip_body_length_two_digit mo fs li pw hl h32 h271,
          pyFormat02x_length (checksumByte_lt total)]
    refine ⟨hodd, ?_⟩
    intro sm seqv
    show (change_state_command mo fs li pw hl t).bind (build_frame sm seqv) = none
    cases hcc : change_state_command mo fs li pw hl t with
    | none => rfl
    | some cmd =>
      have hn := hodd cmd hcc
      show build_frame sm seqv cmd = none
      unfold build_frame len4
      rw [hn]
      rfl

end Zenkeo

namespace Zenkeo

/-- Witness for C10: targetTemp 20 builds a payload whose temperature byte
is 4, targetTemp 10 fails in the checksum step and emits no frame, and
targetTemp 100 emits no frame (its hex text has odd digit count). -/
theorem c10_target_temp_precondition_witness :
    (change_state_payload_bytes .COOL .AUTO .OFF true false 20 =
      some ([255, 255, 34, 0, 0, 0, 0, 0, 0, 1, 77, 95, 0, 0, 0, 0, 0, 0, 0, 0, 0, 0,
        0, 1, 0, 3, 0, 0, 0, 1, 0, 0, 0, 0, 0, 4] ++
        [spec_checksum [255, 255, 34, 0, 0, 0, 0, 0, 0, 1, 77, 95, 0, 0, 0, 0, 0, 0, 0, 0, 0, 0,
          0, 1, 0, 3, 0, 0, 0, 1, 0, 0, 0, 0, 0, 4]]) ∧
      ((20 : Int) - 16).toNat < 16) ∧
    (append_checksum (state_command_body .COOL .AUTO .OFF true false 10) = none ∧
      change_state_frame "AABBCCDDEEFF".data 0 .COOL .AUTO .OFF true false 10 = none) ∧
    change_state_frame "AABBCCDDEEFF".data 0 .COOL .AUTO .OFF true false 100 = none := by
  refine ⟨?_, ?_, ?_⟩
  · exact (c10_target_temp_precondition .COOL .AUTO .OFF true false 20).1
      (by decide) (by decide)
  · have h := (c10_target_temp_precondition .COOL .AUTO .OFF true false 10).2.1 (by decide)
    exact ⟨h.1, h.2 "AABBCCDDEEFF".data 0⟩
  · exact ((c10_target_temp_precondition .COOL .AUTO .OFF true false 100).2.2
      (by decide) (by decide)).2 "AABBCCDDEEFF".data 0

end Zenkeo

namespace Zenkeo

theorem hexChar_toNat_lt {c : Char} (h : (hexDigitVal c).isSome) : c.toNat < 256 := by
  unfold hexDigitVal at h
  have e9 : '9'.toNat = 57 := rfl
  have ef : 'f'.toNat = 102 := rfl
  have eF : 'F'.toNat = 70 := rfl
  split at h
  · omega
  · split at h
    · omega
    · split at h
      · omega
      · simp at h

theorem pyFormat02x_strip_toNat {c : Char} (hb : c.toNat < 256) :
    stripSpaces (pyFormat02x c.toNat) = pyFormat02x c.toNat :=
  stripSpaces_pyFormat02x hb

theorem mac_hex_fromHex : ∀ (sm : List Char), (∀ c ∈ sm, c.toNat < 256) →
    ∀ rest : List Char,
    fromHex (stripSpaces (List.intercalate [' ']
        (sm.map (fun c => pyFormat02x c.toNat))) ++ rest) =
      (fromHex rest).map (fun bs => sm.map Char.toNat ++ bs)
  | [], _, rest => by
    show fromHex (stripSpaces [] ++ rest) = _
    show fromHex rest = _
    cases fromHex rest <;> rfl
  | [c], hb, rest => by
    have hc : c.toNat < 256 := hb c (List.mem_singleton.mpr rfl)
    have h1 : List.intercalate [' '] ([c].map (fun c => pyFormat02x c.toNat)) =
        pyFormat02x c.toNat ++ [] := rfl
    rw [h1, List.append_nil, stripSpaces_pyFormat02x hc, pyFormat02x_digits hc]
    have h2 : ([Nat.digitChar (c.toNat / 16), Nat.digitChar (c.toNat % 16)] ++ rest) =
        Nat.digitChar (c.toNat / 16) :: Nat.digitChar (c.toNat % 16) :: rest := rfl
    rw [h2, fromHex_cons2 rest (hexDigitVal_digitChar (show c.toNat / 16 < 16 by omega))
      (hexDigitVal_digitChar (show c.toNat % 16 < 16 by omega))]
    have h3 : 16 * (c.toNat / 16) + c.toNat % 16 = c.toNat := by omega
    rw [h3]
    cases fromHex rest <;> rfl
  | c :: c' :: cs, hb, rest => by
    have hc : c.toNat < 256 := hb c (List.mem_cons_self ..)
    have hb' : ∀ d ∈ c' :: cs, d.toNat < 256 := fun d hd =>
      hb d (List.mem_cons_of_mem _ hd)
    have h1 : List.intercalate [' '] ((c :: c' :: cs).map (fun x => pyFormat02x x.toNat)) =
        pyFormat02x c.toNat ++ ([' '] ++
          List.intercalate [' '] ((c' :: cs).map (fun x => pyFormat02x x.toNat))) := by
      unfold List.intercalate
      simp [List.intersperse_cons₂]
    rw [h1, stripSpaces_append, stripSpaces_append, stripSpaces_pyFormat02x hc,
      show stripSpaces [' '] = ([] : List Char) from by decide, List.nil_append,
      pyFormat02x_digits hc, List.append_assoc]
    have h2 : ([Nat.digitChar (c.toNat / 16), Nat.digitChar (c.toNat % 16)] ++
        (stripSpaces (List.intercalate [' ']
          ((c' :: cs).map (fun x => pyFormat02x x.toNat))) ++ rest)) =
        Nat.digitChar (c.toNat / 16) :: Nat.digitChar (c.toNat % 16) ::
        (stripSpaces (List.intercalate [' ']
          ((c' :: cs).map (fun x => pyFormat02x x.toNat))) ++ rest) := rfl
    rw [h2, fromHex_cons2 _ (hexDigitVal_digitChar (show c.toNat / 16 < 16 by omega))
      (hexDigitVal_digitChar (show c.toNat % 16 < 16 by omega)),
      mac_hex_fromHex (c' :: cs) hb' rest]
    have h3 : 16 * (c.toNat / 16) + c.toNat % 16 = c.toNat := by omega
    rw [h3]
    cases fromHex rest <;> rfl

theorem mac_to_hex_strip (sm : List Char) :
    stripSpaces (mac_to_hex sm) =
      stripSpaces (List.intercalate [' '] (sm.map (fun c => pyFormat02x c.toNat))) ++
        "00000000".data := by
  unfold mac_to_hex
  rw [stripSpaces_append,
    show stripSpaces " 00 00 00 00".data = "00000000".data from by decide]

end Zenkeo

namespace Zenkeo

theorem build_frame_bytes {sm : List Char} (hm : ∀ c ∈ sm, c.toNat < 256)
    (seqv : Nat) {payload : List Char} {pb : List Nat}
    (hp : fromHex (stripSpaces payload) = some pb) :
    build_frame sm seqv payload =
      some ([0, 0, 39, 20, 0, 0, 0, 0] ++ List.replicate 32 0 ++
        (sm.map Char.toNat ++ [0, 0, 0, 0]) ++ List.replicate 16 0 ++
        [0, 0, 0, seqv % 256] ++ [0, 0, 0, pb.length % 256] ++ pb) := by
  unfold build_frame len4
  rw [hp]
  show build_command
      [ "00 00 27 14 00 00 00 00".data,
        "00 00 00 00 00 00 00 00 00 00 00 00 00 00 00 00".data,
        "00 00 00 00 00 00 00 00 00 00 00 00 00 00 00 00".data,
        mac_to_hex sm,
        "00 00 00 00 00 00 00 00 00 00 00 00 00 00 00 00".data,
        order_byte seqv,
        order_byte pb.length,
        payload ] = _
  unfold build_command
  simp only [List.flatten_cons, List.flatten_nil, List.append_nil, stripSpaces_append]
  rw [mac_to_hex_strip,
    show stripSpaces "00 00 27 14 00 00 00 00".data = "0000271400000000".data from by decide]
  simp only [show stripSpaces "00 00 00 00 00 00 00 00 00 00 00 00 00 00 00 00".data =
    "00000000000000000000000000000000".data from by decide]
  rw [List.append_assoc,
    fromHex_append_of_some "0000271400000000".data _ [0, 0, 39, 20, 0, 0, 0, 0] (by decide),
    fromHex_append_of_some "00000000000000000000000000000000".data _
      (List.replicate 16 0) (by decide),
    fromHex_append_of_some "00000000000000000000000000000000".data _
      (List.replicate 16 0) (by decide),
    mac_hex_fromHex sm hm,
    fromHex_append_of_some "00000000".data _ [0, 0, 0, 0] (by decide),
    fromHex_append_of_some "00000000000000000000000000000000".data _
      (List.replicate 16 0) (by decide),
    fromHex_append_of_some (stripSpaces (order_byte seqv)) _ [0, 0, 0, seqv % 256]
      (order_byte_bytes seqv),
    fromHex_append_of_some (stripSpaces (order_byte pb.length)) _ [0, 0, 0, pb.length % 256]
      (order_byte_bytes pb.length),
    hp]
  have hr32 : List.replicate 32 (0 : Nat) =
      [0, 0, 0, 0, 0, 0, 0, 0, 0, 0, 0, 0, 0, 0, 0, 0,
       0, 0, 0, 0, 0, 0, 0, 0, 0, 0, 0, 0, 0, 0, 0, 0] := by decide
  have hr16 : List.replicate 16 (0 : Nat) =
      [0, 0, 0, 0, 0, 0, 0, 0, 0, 0, 0, 0, 0, 0, 0, 0] := by decide
  simp [hr32, hr16, List.append_assoc]

end Zenkeo

namespace Zenkeo

/-- C7: Encoding contract.  For every MAC whose stored form is a 12-character
hex-digit string, any sequence value and any payload text that denotes a
byte sequence pb, frame encoding never fails and produces the full
envelope: magic, 32 zero bytes, the ASCII codes of the MAC characters plus
4 zero bytes, 16 zero bytes, the 4-byte sequence field, the 4-byte length
field, then the payload bytes. -/
theorem c7_encoding_contract (sm : List Char) (_h12 : sm.length = 12)
    (hhex : ∀ c ∈ sm, (hexDigitVal c).isSome) (seqv : Nat)
    (payload : List Char) (pb : List Nat)
    (hp : fromHex (stripSpaces payload) = some pb) :
    build_frame sm seqv payload =
      some ([0, 0, 39, 20, 0, 0, 0, 0] ++ List.replicate 32 0 ++
        (sm.map Char.toNat ++ [0, 0, 0, 0]) ++ List.replicate 16 0 ++
        [0, 0, 0, seqv % 256] ++ [0, 0, 0, pb.length % 256] ++ pb) :=
  build_frame_bytes (fun c hc => hexChar_toNat_lt (hhex c hc)) seqv hp

/-- Witness for C7 at MAC "AABBCCDDEEFF", sequence 5 and the hello payload. -/
theorem c7_encoding_contract_witness :
    build_frame "AABBCCDDEEFF".data 5 hello_payload =
      some ([0, 0, 39, 20, 0, 0, 0, 0] ++ List.replicate 32 0 ++
        ([65, 65, 66, 66, 67, 67, 68, 68, 69, 69, 70, 70] ++ [0, 0, 0, 0]) ++
        List.replicate 16 0 ++ [0, 0, 0, 5] ++ [0, 0, 0, 13] ++
        [255, 255, 10, 0, 0, 0, 0, 0, 0, 1, 77, 1, 89]) :=
  c7_encoding_contract "AABBCCDDEEFF".data (by decide) (by decide) 5 hello_payload
    [255, 255, 10, 0, 0, 0, 0, 0, 0, 1, 77, 1, 89] (by decide)

/-- C3: Envelope layout.  For every facade operation (hello, init, turn_on,
turn_off, get_state, change_state), every stored MAC made of hex-digit
characters and every sequence value, the frame written to the transport is
exactly: the 8-byte magic 00 00 27 14 00 00 00 00, 32 zero bytes, the
16-byte MAC block (ASCII codes of the 12 MAC characters then 4 zero
bytes), 16 zero bytes, the 4-byte sequence field, the 4-byte
payload-length field holding the byte length of the payload, then the
payload. -/
theorem c3_envelope_layout (sm : List Char) (hm : ∀ c ∈ sm, (hexDigitVal c).isSome)
    (seqv : Nat) :
    hello_frame sm seqv =
      some ([0, 0, 39, 20, 0, 0, 0, 0] ++ List.replicate 32 0 ++
        (sm.map Char.toNat ++ [0, 0, 0, 0]) ++ List.replicate 16 0 ++
        [0, 0, 0, seqv % 256] ++ [0, 0, 0, 13] ++
        [255, 255, 10, 0, 0, 0, 0, 0, 0, 1, 77, 1, 89]) ∧
    init_frame sm seqv =
      some ([0, 0, 39, 20, 0, 0, 0, 0] ++ List.replicate 32 0 ++
        (sm.map Char.toNat ++ [0, 0, 0, 0]) ++ List.replicate 16 0 ++
        [0, 0, 0, seqv % 256] ++ [0, 0, 0, 11] ++
        [255, 255, 8, 0, 0, 0, 0, 0, 0, 115, 123]) ∧
    turn_on_frame sm seqv =
      some ([0, 0, 39, 20, 0, 0, 0, 0] ++ List.replicate 32 0 ++
        (sm.map Char.toNat ++ [0, 0, 0, 0]) ++ List.replicate 16 0 ++
        [0, 0, 0, seqv % 256] ++ [0, 0, 0, 13] ++
        [255, 255, 10, 0, 0, 0, 0, 0, 0, 1, 77, 2, 90]) ∧
    turn_off_frame sm seqv =
      some ([0, 0, 39, 20, 0, 0, 0, 0] ++ List.replicate 32 0 ++
        (sm.map Char.toNat ++ [0, 0, 0, 0]) ++ List.replicate 16 0 ++
        [0, 0, 0, seqv % 256] ++ [0, 0, 0, 13] ++
        [255, 255, 10, 0, 0, 0, 0, 0, 0, 1, 77, 3, 91]) ∧
    (∀ pb, get_state_payload_bytes = some pb → pb.length < 256 →
      get_state_frame sm seqv =
        some ([0, 0, 39, 20, 0, 0, 0, 0] ++ List.replicate 32 0 ++
          (sm.map Char.toNat ++ [0, 0, 0, 0]) ++ List.replicate 16 0 ++
          [0, 0, 0, seqv % 256] ++ [0, 0, 0, pb.length] ++ pb)) ∧
    (∀ (mo : Mode) (fs : FanSpeed) (li : Limits) (pw hl : Bool) (t : Int) pb,
      change_state_payload_bytes mo fs li pw hl t = some pb → pb.length < 256 →
      change_state_frame sm seqv mo fs li pw hl t =
        some ([0, 0, 39, 20, 0, 0, 0, 0] ++ List.replicate 32 0 ++
          (sm.map Char.toNat ++ [0, 0, 0, 0]) ++ List.replicate 16 0 ++
          [0, 0, 0, seqv % 256] ++ [0, 0, 0, pb.length] ++ pb)) := by
  have hm' : ∀ c ∈ sm, c.toNat < 256 := fun c hc => hexChar_toNat_lt (hm c hc)
  refine ⟨?_, ?_, ?_, ?_, ?_, ?_⟩
  · exact build_frame_bytes hm' seqv (show fromHex (stripSpaces hello_payload) =
      some [255, 255, 10, 0, 0, 0, 0, 0, 0, 1, 77, 1, 89] from by decide)
  · exact build_frame_bytes hm' seqv (show fromHex (stripSpaces init_payload) =
      some [255, 255, 8, 0, 0, 0, 0, 0, 0, 115, 123] from by decide)
  · exact build_frame_bytes hm' seqv (show fromHex (stripSpaces turn_on_payload) =
      some [255, 255, 10, 0, 0, 0, 0, 0, 0, 1, 77, 2, 90] from by decide)
  · exact build_frame_bytes hm' seqv (show fromHex (stripSpaces turn_off_payload) =
      some [255, 255, 10, 0, 0, 0, 0, 0, 0, 1, 77, 3, 91] from by decide)
  · intro pb hpb hlen
    cases hc : get_state_command with
    | none =>
      rw [show get_state_payload_bytes = get_state_command.bind
        (fun cmd => fromHex (stripSpaces cmd)) from rfl, hc] at hpb
      exact absurd hpb (by simp)
    | some cmd =>
      rw [show get_state_payload_bytes = get_state_command.bind
        (fun cmd => fromHex (stripSpaces cmd)) from rfl, hc] at hpb
      have hcmd : fromHex (stripSpaces cmd) = some pb := hpb
      show (get_state_command.bind (build_frame sm seqv)) = _
      rw [hc]
      show build_frame sm seqv cmd = _
      rw [build_frame_bytes hm' seqv hcmd, Nat.mod_eq_of_lt hlen]
  · intro mo fs li pw hl t pb hpb hlen
    cases hc : change_state_command mo fs li pw hl t with
    | none =>
      rw [show change_state_payload_bytes mo fs li pw hl t =
        (change_state_command mo fs li pw hl t).bind
          (fun cmd => fromHex (stripSpaces cmd)) from rfl, hc] at hpb
      exact absurd hpb (by simp)
    | some cmd =>
      rw [show change_state_payload_bytes mo fs li pw hl t =
        (change_state_command mo fs li pw hl t).bind
          (fun cmd => fromHex (stripSpaces cmd)) from rfl, hc] at hpb
      have hcmd : fromHex (stripSpaces cmd) = some pb := hpb
      show ((change_state_command mo fs li pw hl t).bind (build_frame sm seqv)) = _
      rw [hc]
      show build_frame sm seqv cmd = _
      rw [build_frame_bytes hm' seqv hcmd, Nat.mod_eq_of_lt hlen]

/-- Witness for C3 at MAC "AABBCCDDEEFF" and sequence 3, with the concrete
get_state and change_state (COOL, AUTO, OFF, power on, 22 degrees)
payload byte strings. -/
theorem c3_envelope_layout_witness :
    hello_frame "AABBCCDDEEFF".data 3 =
      some ([0, 0, 39, 20, 0, 0, 0, 0] ++ List.replicate 32 0 ++
        ([65, 65, 66, 66, 67, 67, 68, 68, 69, 69, 70, 70] ++ [0, 0, 0, 0]) ++
        List.replicate 16 0 ++ [0, 0, 0, 3] ++ [0, 0, 0, 13] ++
        [255, 255, 10, 0, 0, 0, 0, 0, 0, 1, 77, 1, 89]) ∧
    get_state_frame "AABBCCDDEEFF".data 3 =
      some ([0, 0, 39, 20, 0, 0, 0, 0] ++ List.replicate 32 0 ++
        ([65, 65, 66, 66, 67, 67, 68, 68, 69, 69, 70, 70] ++ [0, 0, 0, 0]) ++
        List.replicate 16 0 ++ [0, 0, 0, 3] ++ [0, 0, 0, 37] ++
        [255, 255, 34, 0, 0, 0, 0, 0, 0, 1, 77, 95, 0, 0, 0, 0, 0, 0, 0, 0, 0, 0,
          0, 1, 0, 3, 0, 0, 0, 0, 0, 0, 0, 0, 0, 5, 183]) ∧
    change_state_frame "AABBCCDDEEFF".data 3 .COOL .AUTO .OFF true false 22 =
      some ([0, 0, 39, 20, 0, 0, 0, 0] ++ List.replicate 32 0 ++
        ([65, 65, 66, 66, 67, 67, 68, 68, 69, 69, 70, 70] ++ [0, 0, 0, 0]) ++
        List.replicate 16 0 ++ [0, 0, 0, 3] ++ [0, 0, 0, 37] ++
        [255, 255, 34, 0, 0, 0, 0, 0, 0, 1, 77, 95, 0, 0, 0, 0, 0, 0, 0, 0, 0, 0,
          0, 1, 0, 3, 0, 0, 0, 1, 0, 0, 0, 0, 0, 6, 187]) := by
  have h := c3_envelope_layout "AABBCCDDEEFF".data (by decide) 3
  exact ⟨h.1,
    h.2.2.2.2.1 [255, 255, 34, 0, 0, 0, 0, 0, 0, 1, 77, 95, 0, 0, 0, 0, 0, 0, 0, 0, 0, 0,
      0, 1, 0, 3, 0, 0, 0, 0, 0, 0, 0, 0, 0, 5, 183] (by decide) (by decide),
    h.2.2.2.2.2 .COOL .AUTO .OFF true false 22
      [255, 255, 34, 0, 0, 0, 0, 0, 0, 1, 77, 95, 0, 0, 0, 0, 0, 0, 0, 0, 0, 0,
        0, 1, 0, 3, 0, 0, 0, 1, 0, 0, 0, 0, 0, 6, 187] (by decide) (by decide)⟩

end Zenkeo

namespace Zenkeo

theorem wns_cons_inv {c : Char} {cs : List Char} {i S : Nat}
    (h : weightedNibbleSum (c :: cs) i = some S) :
    ∃ d rest, hexDigitVal c = some d ∧ weightedNibbleSum cs (i + 1) = some rest ∧
      S = d * (i % 2 + 1) + rest := by
  have he : weightedNibbleSum (c :: cs) i =
      match hexDigitVal c, weightedNibbleSum cs (i + 1) with
      | some d, some rest => some (d * (i % 2 + 1) + rest)
      | _, _ => none := rfl
  rw [he] at h
  cases hd : hexDigitVal c <;> rw [hd] at h
  · exact absurd h (by simp)
  cases hr : weightedNibbleSum cs (i + 1) <;> rw [hr] at h
  · exact absurd h (by simp)
  simp only [Option.some.injEq] at h
  exact ⟨_, _, rfl, rfl, h.symm⟩

theorem wns_set : ∀ (l : List Char) (i k : Nat) (ci c' : Char) (d d' S : Nat),
    l[i]? = some ci → hexDigitVal ci = some d → hexDigitVal c' = some d' →
    weightedNibbleSum l k = some S →
    ∃ S', weightedNibbleSum (l.set i c') k = some S' ∧
      (S' : Int) = (S : Int) + ((d' : Int) - (d : Int)) * (((i + k) % 2 : Nat) + 1)
  | [], i, k, ci, c', d, d', S, hget, _, _, _ => by simp at hget
  | c :: cs, 0, k, ci, c', d, d', S, hget, hd, hd', hsum => by
    simp only [List.getElem?_cons_zero, Option.some.injEq] at hget
    subst hget
    obtain ⟨d0, rest, hd0, hrest, hS⟩ := wns_cons_inv hsum
    rw [hd] at hd0
    cases hd0
    refine ⟨d' * (k % 2 + 1) + rest, ?_, ?_⟩
    · have he : weightedNibbleSum (c' :: cs) k =
          match hexDigitVal c', weightedNibbleSum cs (k + 1) with
          | some d, some rest => some (d * (k % 2 + 1) + rest)
          | _, _ => none := rfl
      rw [List.set_cons_zero, he, hd', hrest]
    · subst hS
      have hz : (0 + k) % 2 = k % 2 := by omega
      rw [hz]
      push_cast
      ring
  | c :: cs, i + 1, k, ci, c', d, d', S, hget, hd, hd', hsum => by
    simp only [List.getElem?_cons_succ] at hget
    obtain ⟨d0, rest, hd0, hrest, hS⟩ := wns_cons_inv hsum
    obtain ⟨R', hR', hRe⟩ := wns_set cs i (k + 1) ci c' d d' rest hget hd hd' hrest
    refine ⟨d0 * (k % 2 + 1) + R', ?_, ?_⟩
    · have he : weightedNibbleSum (c :: cs.set i c') k =
          match hexDigitVal c, weightedNibbleSum (cs.set i c') (k + 1) with
          | some d, some rest => some (d * (k % 2 + 1) + rest)
          | _, _ => none := rfl
      rw [List.set_cons_succ, he, hd0, hR']
    · subst hS
      have hw : (i + (k + 1)) % 2 = (i + 1 + k) % 2 := by omega
      rw [hw] at hRe
      push_cast
      push_cast at hRe
      omega

/-- C8: Checksum determinism and single-nibble sensitivity.  The checksum
is a function of the payload text, so equal payload bodies always receive
equal checksum bytes; and for every digit sequence accepted by the
weighted sum, replacing the digit at any position i by a character with a
different hex value yields a digit sequence whose checksum byte differs. -/
theorem c8_checksum_determinism_sensitivity :
    (∀ s1 s2 : List Char, s1 = s2 → append_checksum s1 = append_checksum s2) ∧
    (∀ (cs : List Char) (i : Nat) (ci c' : Char) (d d' S : Nat),
      cs[i]? = some ci → hexDigitVal ci = some d → hexDigitVal c' = some d' → d ≠ d' →
      weightedNibbleSum cs 0 = some S →
      ∃ S', weightedNibbleSum (cs.set i c') 0 = some S' ∧
        checksumByte S' ≠ checksumByte S) := by
  constructor
  · intro s1 s2 h
    rw [h]
  · intro cs i ci c' d d' S hget hd hd' hne hsum
    obtain ⟨S', hS', hSe⟩ := wns_set cs i 0 ci c' d d' S hget hd hd' hsum
    refine ⟨S', hS', ?_⟩
    intro heq
    unfold checksumByte at heq
    have hdlt : d < 16 := hexDigitVal_lt hd
    have hdlt' : d' < 16 := hexDigitVal_lt hd'
    rcases Nat.mod_two_eq_zero_or_one (i + 0) with hw | hw <;> rw [hw] at hSe <;> omega

end Zenkeo

namespace Zenkeo

/-- Witness for C8: determinism at the text "ff 00", and sensitivity at
the digit sequence "00" with its first digit changed from 0 to 1. -/
theorem c8_checksum_determinism_sensitivity_witness :
    append_checksum "ff 00".data = append_checksum "ff 00".data ∧
    ∃ S', weightedNibbleSum (['0', '0'].set 0 '1') 0 = some S' ∧
      checksumByte S' ≠ checksumByte 0 :=
  ⟨c8_checksum_determinism_sensitivity.1 "ff 00".data "ff 00".data rfl,
   c8_checksum_determinism_sensitivity.2 ['0', '0'] 0 '0' '1' 0 1 0
     (by decide) (by decide) (by decide) (by decide) (by decide)⟩

end Zenkeo
